import Mathlib

/-!
Verification development for the crawl-orchestration core of
`src/backend/crawler.py` (the `SitemapDiscovery` walker, the
`EnhancedWebCrawler` state machine, URL validation and dedup logic).

Shallow-embedding conventions used throughout:

* Python `set` objects are modelled as duplicate-free `List String` values
  manipulated through `setInsert`/`setUnion` (insertion-ordered; Python set
  iteration order is unspecified, and no claim depends on it).
* Network I/O (`aiohttp` GET/HEAD) is an oracle `Net := String → Option Response`;
  `none` models a request that raises.  A `Response` bundles the status code,
  the raw `content-type` header, the raw body text, and the results of the
  external parsers applied to the body (`xml.etree.ElementTree` as an `XmlDoc`,
  BeautifulSoup anchor extraction with `urljoin` resolution already applied,
  `trafilatura` main-text extraction, and the `<title>` text).
* The asyncio batches execute concurrently, but the visited/failed membership
  check and `visited_urls.add` in `_crawl_url` run without an intervening await
  after the semaphore is acquired, so per-batch execution is modelled
  sequentially in task order.
* Wall-clock concerns (rate-limit sleeps, `gc` passes, timestamps) and the
  external collaborators `hashlib`, `datetime`, file persistence and the ML
  summarization pipeline are not part of any claim's control flow and are
  either dropped or supplied as opaque oracles.
* Recursive sitemap fetching is given a `fuel` parameter; a result of `none`
  means the computation did not complete within any given recursion budget
  (used to express non-termination of the source's unbounded recursion).
-/

/-- Boolean test that the character list `s` starts with the list `p`. -/
def charsStartWith : List Char → List Char → Bool
  | _, [] => true
  | [], _ :: _ => false
  | c :: cs, d :: ds => if c = d then charsStartWith cs ds else false

/-- Helper for `strContains`: does `p` occur in the given character list? -/
def strContainsGo (p : List Char) : List Char → Bool
  | [] => charsStartWith [] p
  | c :: rest => if charsStartWith (c :: rest) p then true else strContainsGo p rest

/-- Python's substring test `pat in s`. -/
def strContains (s pat : String) : Bool := strContainsGo pat.toList s.toList

/-- Python's `str.rstrip('/')`. -/
def rstripSlash (s : String) : String :=
  ⟨((s.data.reverse.dropWhile (fun c => c = '/')).reverse)⟩

/-- Helper for `afterFirstColon`. -/
def afterFirstColonChars : List Char → List Char
  | [] => []
  | c :: rest => if c = ':' then rest else afterFirstColonChars rest

/-- Everything after the first `:` of `s` (Python `s.split(':', 1)[1]` when a
colon is present; returns `""` when there is none). -/
def afterFirstColon (s : String) : String := ⟨afterFirstColonChars s.data⟩

/-- Python's `str.strip()` (strip leading and trailing whitespace). -/
def pyStrip (s : String) : String :=
  ⟨((s.data.dropWhile Char.isWhitespace).reverse.dropWhile Char.isWhitespace).reverse⟩

/-- Python's `str.lower()` (ASCII case folding suffices here). -/
def pyLower (s : String) : String := ⟨s.data.map Char.toLower⟩

/-- Python's `str.startswith`. -/
def pyStartsWith (s p : String) : Bool := charsStartWith s.data p.data

/-- Python's `str.endswith`. -/
def pyEndsWith (s p : String) : Bool := charsStartWith s.data.reverse p.data.reverse

/-- Split on every character satisfying `p` (one split per delimiter
character; empty pieces are kept, as Python's `re.split` on a single
character class does). -/
def splitIfChars (p : Char → Bool) : List Char → List Char → List (List Char)
  | [], acc => [acc.reverse]
  | c :: rest, acc =>
    if p c then acc.reverse :: splitIfChars p rest []
    else splitIfChars p rest (c :: acc)

/-- Helper for `pySplitOn`; the `Nat` is a structural bound instantiated with
the length of the list, which each step strictly consumes. -/
def splitOnCharsGo (sep : List Char) : Nat → List Char → List Char → List (List Char)
  | _, [], acc => [acc.reverse]
  | 0, l, acc => [acc.reverse ++ l]
  | n + 1, c :: rest, acc =>
    if charsStartWith (c :: rest) sep ∧ sep ≠ [] then
      acc.reverse :: splitOnCharsGo sep n (rest.drop (sep.length - 1)) []
    else splitOnCharsGo sep n rest (c :: acc)

/-- Python's `str.split(sep)` (non-overlapping, left to right). -/
def pySplitOn (s sep : String) : List String :=
  (splitOnCharsGo sep.data s.data.length s.data []).map (fun l => (⟨l⟩ : String))

/-- Helper for `pyReplace`; same structural bound as `splitOnCharsGo`. -/
def replaceCharsGo (pat rep : List Char) : Nat → List Char → List Char
  | _, [] => []
  | 0, l => l
  | n + 1, c :: rest =>
    if charsStartWith (c :: rest) pat ∧ pat ≠ [] then
      rep ++ replaceCharsGo pat rep n (rest.drop (pat.length - 1))
    else c :: replaceCharsGo pat rep n rest

/-- Python's `str.replace` (all non-overlapping occurrences). -/
def pyReplace (s pat rep : String) : String :=
  ⟨replaceCharsGo pat.data rep.data s.data.length s.data⟩

/-- Result of `urllib.parse.urlparse` restricted to the fields the crawler
reads (`scheme`, `netloc`, `path`).  The translation covers the URL shapes the
crawler handles: `scheme://netloc/path[?query][#fragment]`, with the query and
fragment excluded from `path` exactly as `urlparse` excludes them. -/
structure UrlParts where
  scheme : String
  netloc : String
  path : String
deriving Repr, DecidableEq

/-- Shallow embedding of `urllib.parse.urlparse` for `scheme://host/path`
shaped inputs: an input without `://` parses as a bare path with empty scheme
and netloc, as in Python. -/
def urlparse (url : String) : UrlParts :=
  match pySplitOn url "://" with
  | [] => ⟨"", "", ""⟩
  | [u] => ⟨"", "", u⟩
  | s :: rest =>
    let r := String.intercalate "://" rest
    let nl := r.data.takeWhile (fun c => c ≠ '/')
    let rawPath := r.data.drop nl.length
    ⟨s, ⟨nl⟩, ⟨rawPath.takeWhile (fun c => c ≠ '?' ∧ c ≠ '#')⟩⟩

/-- The extension denylist of `SitemapDiscovery._is_valid_url` (regex
`\.(pdf|...)$` applied to the lowercased path). -/
def sitemapBadExtensions : List String :=
  ["pdf", "jpg", "jpeg", "png", "gif", "zip", "exe", "doc", "docx", "mp4",
   "mp3", "avi", "wmv", "css", "js", "ico", "woff", "woff2", "ttf", "eot", "svg"]

/-- The path-segment denylist of `SitemapDiscovery._is_valid_url` (substring
match on the lowercased path). -/
def unwantedPaths : List String :=
  ["/admin", "/login", "/wp-admin", "/wp-login", "/dashboard",
   "/account", "/user", "/profile", "/settings", "/config",
   "/api/", "/ajax/", "/json/", "/xml/", "/search?", "/filter?",
   "/sort?", "/tag/", "/category/", "/author/", "/date/"]

/-- Embeds `SitemapDiscovery._is_valid_url`: scheme and netloc must be present, the
host must equal / be a subdomain of / be a parent domain of `domain`, and the
path must avoid the extension and segment denylists. -/
def isValidUrl (domain url : String) : Bool :=
  if url = "" then false
  else
    let p := urlparse url
    if p.scheme = "" ∨ p.netloc = "" then false
    else if ¬ (p.netloc = domain ∨ pyEndsWith p.netloc ("." ++ domain) ∨
               pyEndsWith domain ("." ++ p.netloc)) then false
    else if sitemapBadExtensions.any (fun e => pyEndsWith (pyLower p.path) ("." ++ e)) then false
    else if unwantedPaths.any (fun u => strContains (pyLower p.path) u) then false
    else true

/-- Python `set.add` on an insertion-ordered duplicate-free list. -/
def setInsert (u : String) (s : List String) : List String :=
  if u ∈ s then s else s ++ [u]

/-- Python `set.update` on insertion-ordered duplicate-free lists. -/
def setUnion (s t : List String) : List String :=
  t.foldl (fun a u => setInsert u a) s

/-- Embeds `SitemapDiscovery._generate_sitemap_locations`: the static candidate list
of sitemap/feed locations, including the `www.`/bare-domain variants. -/
def generateSitemapLocations (base domain : String) : List String :=
  let altDomain := if pyStartsWith domain "www." then pyReplace domain "www." ""
                   else "www." ++ domain
  [base ++ "/sitemap.xml",
   base ++ "/sitemap_index.xml",
   base ++ "/sitemap/sitemap.xml",
   base ++ "/sitemaps/sitemap.xml",
   base ++ "/sitemap/index.xml",
   base ++ "/sitemap-index.xml",
   base ++ "/wp-sitemap.xml",
   base ++ "/post-sitemap.xml",
   base ++ "/page-sitemap.xml",
   base ++ "/product-sitemap.xml",
   base ++ "/category-sitemap.xml",
   base ++ "/news-sitemap.xml",
   base ++ "/image-sitemap.xml",
   base ++ "/video-sitemap.xml",
   base ++ "/feeds/posts/sitemap.xml",
   base ++ "/atom.xml",
   base ++ "/rss.xml",
   base ++ "/feed.xml",
   base ++ "/feed/",
   base ++ "/rss/",
   "https://" ++ altDomain ++ "/sitemap.xml",
   "https://" ++ altDomain ++ "/sitemap_index.xml"]

/-- Parse result of `xml.etree.ElementTree.fromstring` restricted to the
shapes `_parse_xml_sitemap` dispatches on.  The constructors encode the root
tag test (`sitemapindex` / `urlset` / `rss`-or-`feed`); the lists carry the
`<loc>` texts (resp. RSS `<item><link>` texts and Atom `<entry><link href>`
values) in document order, with absent elements/texts already dropped as the
`is not None and .text` guards do. -/
inductive XmlDoc where
  | sitemapindex (locs : List String)
  | urlset (locs : List String)
  | feedDoc (itemLinks : List String) (entryHrefs : List String)
  | otherRoot
  | parseError
deriving Repr, DecidableEq

/-- An HTTP response as the crawler observes it: status code, raw
`content-type` header, raw body text, plus the outputs of the external body
parsers (ElementTree, BeautifulSoup anchors resolved via `urljoin`,
trafilatura extraction, `<title>` text). -/
structure Response where
  status : Nat
  contentType : String
  text : String
  xml : XmlDoc
  anchors : List String
  extracted : Option String
  title : Option String
deriving Repr

/-- A response carrying only a status and body text (helper for oracles). -/
def Response.plain (status : Nat) (ctype text : String) : Response :=
  ⟨status, ctype, text, .parseError, [], none, none⟩

/-- The network oracle: `none` models a request that raises. -/
abbrev Net := String → Option Response

/-- Embeds `SitemapDiscovery._is_xml_content` (the content type is lowercased by the
caller, as at the call site). -/
def isXmlContentCheck (ctypeLower text : String) : Bool :=
  strContains ctypeLower "xml" ∨ pyStartsWith (pyStrip text) "<?xml" ∨
  strContains text "<urlset" ∨ strContains text "<sitemapindex" ∨
  strContains text "<rss" ∨ strContains text "<feed"

/-- Embeds `SitemapDiscovery._is_html_content`. -/
def isHtmlContentCheck (ctypeLower text : String) : Bool :=
  strContains ctypeLower "html" ∨ pyStartsWith (pyStrip text) "<!DOCTYPE" ∨
  strContains text "<html"

/-- The `urlset` branch of `_parse_xml_sitemap`: add each stripped nonempty
valid `<loc>`, breaking once the accumulated set reaches `maxPages`. -/
def urlsetLoop (domain : String) (maxPages : Nat) : List String → List String → List String
  | [], acc => acc
  | t :: rest, acc =>
    let u := pyStrip t
    if u ≠ "" ∧ isValidUrl domain u then
      let acc2 := setInsert u acc
      if maxPages ≤ acc2.length then acc2 else urlsetLoop domain maxPages rest acc2
    else urlsetLoop domain maxPages rest acc

/-- The RSS/Atom branch of `_parse_xml_sitemap`: RSS `<item><link>` texts are
stripped and validity-filtered, then Atom `<entry><link href>` values are
filtered; no page cap is applied in this branch (as in the source). -/
def feedUrls (domain : String) (itemLinks entryHrefs : List String) : List String :=
  let s1 := itemLinks.foldl
    (fun acc t => let u := pyStrip t; if isValidUrl domain u then setInsert u acc else acc) []
  entryHrefs.foldl
    (fun acc href => if href ≠ "" ∧ isValidUrl domain href then setInsert href acc else acc) s1

/-- Embeds `SitemapDiscovery._parse_html_sitemap`: the anchors (already resolved
against the page URL) are validity-filtered with the same page-cap break. -/
def parseHtmlSitemap (domain : String) (maxPages : Nat) : List String → List String → List String
  | [], acc => acc
  | full :: rest, acc =>
    if isValidUrl domain full then
      let acc2 := setInsert full acc
      if maxPages ≤ acc2.length then acc2
      else parseHtmlSitemap domain maxPages rest acc2
    else parseHtmlSitemap domain maxPages rest acc

/-- Embeds `SitemapDiscovery._fetch_and_parse_sitemap` together with the XML branch of
`_parse_xml_sitemap`.  The `sitemapindex` branch recursively fetches each
nested `<loc>` and only checks the page cap after the recursive call returns,
exactly as in the source; the fold carries a `done` flag for the `break`.
`fuel` bounds the recursion depth: a `none` result means the recursion did not
complete within the given budget (any fetch error in the source returns the
empty set, never an exception). -/
def fetchAndParseSitemap (net : Net) (domain : String) (maxPages : Nat) :
    Nat → String → Option (List String)
  | 0, _ => none
  | fuel + 1, url =>
    match net url with
    | none => some []
    | some r =>
      if r.status ≠ 200 then some []
      else
        let ctype := pyLower r.contentType
        if isXmlContentCheck ctype r.text then
          match r.xml with
          | .sitemapindex locs =>
            (locs.foldl
              (fun acc loc =>
                match acc with
                | none => none
                | some (urls, true) => some (urls, true)
                | some (urls, false) =>
                  let l := pyStrip loc
                  if l = "" then some (urls, false)
                  else
                    match fetchAndParseSitemap net domain maxPages fuel l with
                    | none => none
                    | some nested =>
                      let merged := setUnion urls nested
                      some (merged, maxPages ≤ merged.length))
              (some ([], false))).map Prod.fst
          | .urlset locs => some (urlsetLoop domain maxPages locs [])
          | .feedDoc items entries => some (feedUrls domain items entries)
          | .otherRoot => some []
          | .parseError => some []
        else if isHtmlContentCheck ctype r.text then
          some (parseHtmlSitemap domain maxPages r.anchors [])
        else some []

/-- The per-line body of the `robots.txt` scan in
`SitemapDiscovery._check_robots_txt`: a stripped line starting (case
insensitively) with `sitemap:` has the part after the first colon stripped
and appended to the candidate list when not already present. -/
def robotsLineStep (locs : List String) (line : String) : List String :=
  let l := pyStrip line
  if pyStartsWith (pyLower l) "sitemap:" then
    let target := pyStrip (afterFirstColon l)
    if target ∈ locs then locs else locs ++ [target]
  else locs

/-- Embeds `SitemapDiscovery._check_robots_txt`: fetch `{base}/robots.txt` and append
(to the end of the candidate list) every `sitemap:`-declared target not
already present. -/
def sitemapDiscoveryRobots (net : Net) (base : String) (locations : List String) :
    List String :=
  match net (base ++ "/robots.txt") with
  | none => locations
  | some r =>
    if r.status = 200 then (pySplitOn r.text "\n").foldl robotsLineStep locations
    else locations

/-- The candidate loop of `SitemapDiscovery.discover_sitemaps`: fetch each
candidate, merge nonempty results into the discovered set, and break once the
set has reached `maxPages`. -/
def discoverLoop (net : Net) (domain : String) (maxPages fuel : Nat) :
    List String → List String → Option (List String)
  | [], acc => some acc
  | c :: rest, acc =>
    match fetchAndParseSitemap net domain maxPages fuel c with
    | none => none
    | some urls =>
      if urls ≠ [] then
        let acc2 := setUnion acc urls
        if maxPages ≤ acc2.length then some acc2
        else discoverLoop net domain maxPages fuel rest acc2
      else discoverLoop net domain maxPages fuel rest acc

/-- Embeds `SitemapDiscovery.discover_sitemaps`: robots.txt-declared sitemaps are
added to the candidate list, then each candidate is probed in order. -/
def discoverSitemaps (net : Net) (base domain : String) (maxPages fuel : Nat) :
    Option (List String) :=
  let locs := sitemapDiscoveryRobots net base (generateSitemapLocations base domain)
  discoverLoop net domain maxPages fuel locs []

/-- Python `s.split()` (split on whitespace runs, dropping empty pieces). -/
def pySplit (s : String) : List String :=
  ((splitIfChars Char.isWhitespace s.data []).map (fun l => (⟨l⟩ : String))).filter
    (fun t => t ≠ "")

/-- Python string comparison (lexicographic on code points) as a Bool. -/
def charListLt : List Char → List Char → Bool
  | [], [] => false
  | [], _ :: _ => true
  | _ :: _, [] => false
  | a :: as, b :: bs => if a < b then true else if b < a then false else charListLt as bs

/-- Python `<` on the `(score, sentence)` tuples of `_extractive_summary`.
The scores `(10 - i) + len(words)/10` are exact multiples of `1/10`, so they
are carried as the integer `(10 - i) * 10 + len(words)` (an order- and
equality-preserving scaling, which also matches the Python float comparisons
since those tenths are compared exactly); ties compare the sentence strings
as Python tuple comparison does. -/
def scoreTupLt (a b : Nat × String) : Bool :=
  if a.1 < b.1 then true
  else if a.1 = b.1 then charListLt a.2.data b.2.data
  else false

/-- Stable insertion used by `sortBy`; `bf x y = true` keeps `x` before `y`. -/
def insertBy {α : Type} (bf : α → α → Bool) (x : α) : List α → List α
  | [] => [x]
  | y :: ys => if bf x y then x :: y :: ys else y :: insertBy bf x ys

/-- Stable sort (insertion sort).  For the total preorders used here this
agrees with Python's stable `sorted`. -/
def sortBy {α : Type} (bf : α → α → Bool) : List α → List α
  | [] => []
  | x :: xs => insertBy bf x (sortBy bf xs)

/-- Python `list.index` (first index of `x`, length if absent — all lookups in
`_extractive_summary` are of present elements). -/
def pyIndexOf (l : List String) (x : String) : Nat :=
  match l with
  | [] => 0
  | y :: ys => if y = x then 0 else pyIndexOf ys x + 1

/-- Embeds `ContentSummarizer._extractive_summary`.  Sentences are split on the
delimiter characters `.!?` (the regex `[.!?]+` collapses delimiter runs; the
extra empty pieces produced by per-character splitting are removed by the
`> 20` length filter, so the resulting sentence list is identical).  Scores
are the integer scaling described at `scoreTupLt`, and both sorts are stable,
matching Python's `sorted`. -/
def extractiveSummary (content : String) (maxSentences : Nat) : String :=
  let pieces := (splitIfChars (fun c => c = '.' ∨ c = '!' ∨ c = '?') content.data []).map
    (fun l => (⟨l⟩ : String))
  let sentences := (pieces.map pyStrip).filter (fun s => 20 < s.length)
  if sentences.length ≤ maxSentences then String.intercalate ". " sentences
  else
    let scored := (sentences.take 10).enum.map
      (fun p => ((10 - p.1) * 10 + (pySplit p.2).length, p.2))
    let top := (sortBy (fun a b => ¬ scoreTupLt a b = true) scored).take maxSentences
    let top2 := sortBy (fun a b => pyIndexOf sentences a.2 ≤ pyIndexOf sentences b.2) top
    String.intercalate ". " (top2.map Prod.snd)

/-- The summarization pipeline collaborator: `none` models
`self.summarizer is None` (model failed to load); a function result of `none`
models the pipeline call raising. -/
abbrev SummModel := Option (String → Option String)

/-- Embeds `ContentSummarizer.summarize_content`.  `clean` injects the pure regex
cleaner `_clean_content` (URL/email stripping), which only affects the text
handed to the external pipeline, never the fallback path. -/
def summarizeContent (clean : String → String) (model : SummModel) (content : String) :
    String :=
  if (pyStrip content).length < 100 then pyStrip content
  else
    match model with
    | some f =>
      let cleaned := clean content
      let cleaned2 := if 1024 < cleaned.length then cleaned.take 1024 else cleaned
      match f cleaned2 with
      | some s => s
      | none => extractiveSummary content 3
    | none => extractiveSummary content 3

/-- The extension denylist regex of `EnhancedWebCrawler._extract_links`
(applied case-insensitively to the full URL). -/
def linkBadExtensions : List String :=
  ["pdf", "jpg", "jpeg", "png", "gif", "zip", "exe", "doc", "docx", "mp4",
   "mp3", "avi", "wmv", "css", "js", "ico"]

/-- Embeds `EnhancedWebCrawler._extract_links`: keep same-domain (or sub/parent
domain) anchors without denylisted extensions; `list(set(links))` dedups (the
source's set order is unspecified; last-occurrence order is kept here and no
claim depends on it). -/
def extractLinks (baseUrl : String) (anchors : List String) : List String :=
  let baseDomain := (urlparse baseUrl).netloc
  (anchors.filter (fun full =>
    let ld := (urlparse full).netloc
    (ld = baseDomain ∨ pyEndsWith ld ("." ++ baseDomain) ∨
      pyEndsWith baseDomain ("." ++ ld)) ∧
    ¬ linkBadExtensions.any (fun e => pyEndsWith (pyLower full) ("." ++ e)))).dedup

/-- Embeds `CrawlResult` restricted to the fields produced by the embedded pipeline;
`metadata`, `crawl_time` (wall clock), `content_hash` (hashlib) and the unused
`error` field are external-collaborator values carried unchanged and are not
modelled. -/
structure CrawlResult where
  url : String
  title : String
  content : String
  summary : String
  wordCount : Nat
  links : List String
deriving Repr, DecidableEq

/-- The `crawl_method` tag. -/
inductive CrawlMethod where
  | unknown
  | sitemap
  | manual
deriving Repr, DecidableEq

/-- The mutable state of `EnhancedWebCrawler`, with `fetchLog` as
instrumentation recording every URL for which a page `GET` is issued. -/
structure CrawlSt where
  visited : List String
  failed : List String
  queue : List String
  results : List CrawlResult
  robotsCache : List (String × Bool)
  discoveredSubdomains : List String
  sitemapUrls : List String
  method : CrawlMethod
  fetchLog : List String
deriving Repr

/-- The state right after `EnhancedWebCrawler.__init__`. -/
def initialCrawlSt : CrawlSt := ⟨[], [], [], [], [], [], [], .unknown, []⟩

/-- The crawl configuration (`delay_between_requests`, `output_file` and
`max_memory_mb` drive only wall-clock pacing, persistence and the memory
oracle and are not carried here). -/
structure Config where
  baseUrl : String
  maxSubdomains : Nat
  maxPagesPerDomain : Nat
  maxConcurrent : Nat
  preferSitemap : Bool
deriving Repr

/-- Embeds `EnhancedWebCrawler._check_robots_txt` acting on the `robots_cache`
field: returns the (possibly memoized) allow decision and the updated cache.
On a 200 response the *whole text* is tested for the two substrings
`User-agent: *` and `Disallow: /`; non-200 and fetch errors default to
allowed. -/
def checkRobotsCrawler (net : Net) (cache : List (String × Bool)) (url : String) :
    Bool × List (String × Bool) :=
  let domain := (urlparse url).netloc
  match cache.lookup domain with
  | some b => (b, cache)
  | none =>
    let decision :=
      match net ("https://" ++ domain ++ "/robots.txt") with
      | some r =>
        if r.status = 200 then
          if strContains r.text "User-agent: *" ∧ strContains r.text "Disallow: /" then
            false
          else true
        else true
      | none => true
    (decision, cache ++ [(domain, decision)])

/-- Embeds `EnhancedWebCrawler._crawl_url`.  The visited/failed membership guard and
`visited_urls.add` happen before anything else; `failed_urls` gains the URL
only on a non-200 response or on a raised fetch (the non-HTML and
short-content branches return `None` without touching `failed_urls`). -/
def crawlUrl (net : Net) (sm : SummModel) (clean : String → String)
    (st : CrawlSt) (url : String) : CrawlSt × Option CrawlResult :=
  if url ∈ st.visited ∨ url ∈ st.failed then (st, none)
  else
    let st1 : CrawlSt := { st with visited := setInsert url st.visited }
    let rc := checkRobotsCrawler net st1.robotsCache url
    let st2 : CrawlSt := { st1 with robotsCache := rc.2 }
    if rc.1 = false then (st2, none)
    else
      let st3 : CrawlSt := { st2 with fetchLog := st2.fetchLog ++ [url] }
      match net url with
      | none => ({ st3 with failed := setInsert url st3.failed }, none)
      | some r =>
        if r.status ≠ 200 then ({ st3 with failed := setInsert url st3.failed }, none)
        else if strContains (pyLower r.contentType) "text/html" = false then (st3, none)
        else
          match r.extracted with
          | none => (st3, none)
          | some ec =>
            if (pyStrip ec).length < 100 then (st3, none)
            else
              let titleText :=
                match r.title with
                | some t => pyStrip t
                | none => (urlparse url).path
              let links := extractLinks url r.anchors
              let summary := summarizeContent clean sm ec
              let result : CrawlResult :=
                { url := url, title := titleText, content := ec.take 2000,
                  summary := summary, wordCount := (pySplit ec).length,
                  links := links.take 10 }
              ({ st3 with results := st3.results ++ [result] }, some result)

/-- The loop body of `EnhancedWebCrawler._add_discovered_urls`: append a URL
not already attempted, but only while the queue is strictly below the hard
cap 1000. -/
def addUrlStep (s : CrawlSt) (u : String) : CrawlSt :=
  if u ∉ s.visited ∧ u ∉ s.failed ∧ s.queue.length < 1000 then
    { s with queue := s.queue ++ [u] }
  else s

/-- Embeds `EnhancedWebCrawler._add_discovered_urls`. -/
def addDiscoveredUrls (st : CrawlSt) (urls : List String) : CrawlSt :=
  urls.foldl addUrlStep st

/-- One batch of `asyncio.gather`-ed `_crawl_url` tasks, in task order (the
membership-check/`add` pair is atomic per task, see the header note). -/
def runBatch (net : Net) (sm : SummModel) (clean : String → String) :
    CrawlSt → List String → CrawlSt × List (Option CrawlResult)
  | st, [] => (st, [])
  | st, u :: rest =>
    let o := crawlUrl net sm clean st u
    let r := runBatch net sm clean o.1 rest
    (r.1, o.2 :: r.2)

/-- One step of the manual-mode link feedback of `EnhancedWebCrawler.crawl`:
a batch entry that is a `CrawlResult` with nonempty links has its links added. -/
def feedbackStep (s : CrawlSt) (o : Option CrawlResult) : CrawlSt :=
  match o with
  | some r => if r.links ≠ [] then addDiscoveredUrls s r.links else s
  | none => s

/-- The manual-mode link feedback of `EnhancedWebCrawler.crawl`. -/
def feedbackUrls (st : CrawlSt) (rs : List (Option CrawlResult)) : CrawlSt :=
  rs.foldl feedbackStep st

/-- The fetch loop of `EnhancedWebCrawler.crawl` (step 2): loop while the
queue is nonempty and fewer than `maxPagesPerDomain` results exist, stop when
the memory oracle trips, pop a batch of `min(maxConcurrent, len(queue))`
URLs, crawl it, and in manual mode feed discovered links back. -/
def crawlLoop (net : Net) (sm : SummModel) (clean : String → String)
    (memOk : Nat → Bool) (cfg : Config) : Nat → CrawlSt → CrawlSt
  | 0, st => st
  | fuel + 1, st =>
    if st.queue = [] ∨ cfg.maxPagesPerDomain ≤ st.results.length then st
    else if memOk fuel = false then st
    else
      let bs := min cfg.maxConcurrent st.queue.length
      let batch := st.queue.take bs
      let st2 : CrawlSt := { st with queue := st.queue.drop bs }
      if batch = [] then st2
      else
        let rb := runBatch net sm clean st2 batch
        let st3 := if rb.1.method = .manual then feedbackUrls rb.1 rb.2 else rb.1
        crawlLoop net sm clean memOk cfg fuel st3

/-- The fixed prefix list of `EnhancedWebCrawler._discover_subdomains`. -/
def commonSubdomains : List String :=
  ["www", "blog", "shop", "store", "api", "app", "support",
   "help", "docs", "forum", "community", "news", "mail",
   "static", "assets", "cdn", "media", "images"]

/-- The probe loop of `_discover_subdomains`: HEAD each candidate, accept on
status 200, stop after `maxSubdomains` acceptances; errors are skipped. -/
def discoverSubdomainsGo (net : Net) (base baseDomain : String) (maxSubdomains : Nat) :
    List String → Nat → List String → List String
  | [], _, acc => acc
  | s :: rest, count, acc =>
    if maxSubdomains ≤ count then acc
    else
      let u := "https://" ++ s ++ "." ++ baseDomain
      if u = base then discoverSubdomainsGo net base baseDomain maxSubdomains rest count acc
      else
        match net u with
        | some r =>
          if r.status = 200 then
            discoverSubdomainsGo net base baseDomain maxSubdomains rest (count + 1) (acc ++ [u])
          else discoverSubdomainsGo net base baseDomain maxSubdomains rest count acc
        | none => discoverSubdomainsGo net base baseDomain maxSubdomains rest count acc

/-- Embeds `EnhancedWebCrawler._discover_subdomains`. -/
def discoverSubdomains (net : Net) (base domain : String) (maxSubdomains : Nat) :
    List String :=
  let baseDomain := if pyStartsWith domain "www." then pyReplace domain "www." ""
                    else domain
  discoverSubdomainsGo net base baseDomain maxSubdomains commonSubdomains 0 []

/-- Embeds `EnhancedWebCrawler._setup_manual_crawling`: seed the queue with the base
URL, then with each discovered subdomain URL. -/
def setupManualCrawling (net : Net) (base domain : String) (cfg : Config)
    (st : CrawlSt) : CrawlSt :=
  let stq : CrawlSt := { st with queue := st.queue ++ [base] }
  let subs := discoverSubdomains net base domain cfg.maxSubdomains
  { stq with discoveredSubdomains := subs, queue := stq.queue ++ subs }

/-- The sitemap-mode queue seeding of `EnhancedWebCrawler.crawl` (lines
482-483): `for url in list(self.sitemap_urls)[:self.max_pages_per_domain]:
self.url_queue.append(url)`.  Note the 1000-entry queue cap of
`_add_discovered_urls` is not applied here. -/
def seedSitemapQueue (sitemapUrls : List String) (maxPages : Nat)
    (queue : List String) : List String :=
  queue ++ sitemapUrls.take maxPages

/-- Embeds `EnhancedWebCrawler.crawl`: sitemap discovery (when preferred) decides the
crawl method and the queue seeding, then the fetch loop runs.  A `none`
result means sitemap discovery did not complete within the recursion budget
(the source would not return at all).  Persistence of results is an external
collaborator and not modelled. -/
def crawl (net : Net) (sm : SummModel) (clean : String → String)
    (memOk : Nat → Bool) (cfg : Config) (fuel : Nat) : Option CrawlSt :=
  let base := rstripSlash cfg.baseUrl
  let domain := (urlparse cfg.baseUrl).netloc
  let st0 := initialCrawlSt
  let st1? : Option CrawlSt :=
    if cfg.preferSitemap then
      match discoverSitemaps net base domain cfg.maxPagesPerDomain fuel with
      | none => none
      | some smUrls =>
        let stS : CrawlSt := { st0 with sitemapUrls := smUrls }
        if smUrls ≠ [] then
          let stM : CrawlSt := { stS with method := .sitemap }
          some { stM with queue := seedSitemapQueue smUrls cfg.maxPagesPerDomain stM.queue }
        else
          some (setupManualCrawling net base domain cfg { stS with method := .manual })
    else
      some (setupManualCrawling net base domain cfg { st0 with method := .manual })
  match st1? with
  | none => none
  | some st1 => some (crawlLoop net sm clean memOk cfg fuel st1)

/-- Modelled from the spec: the external `validators.url` predicate used by
`main` (the `validators` library is an external collaborator).  It accepts
only absolute `http(s)` URLs with a dotted host, which is all the claims
need: it rejects the concrete malformed inputs used below and accepts normal
`https://host/...` URLs. -/
def validatorsUrl (s : String) : Bool :=
  let p := urlparse s
  (p.scheme = "http" ∨ p.scheme = "https") ∧ p.netloc ≠ "" ∧ strContains p.netloc "."

/-- Embeds `main` of `crawler.py`, up to its error surface: the base URL is checked
with `validators.url` *before* the crawler is constructed and before any I/O;
on failure the process exits with an error (modelled as `Except.error`), and
this validation is the only error exit (crawler failures are swallowed per
URL inside `crawl`).  `validator` injects the external `validators.url`. -/
def mainModel (validator : String → Bool) (net : Net) (sm : SummModel)
    (clean : String → String) (memOk : Nat → Bool) (cfg : Config) (fuel : Nat) :
    Option (Except String (List CrawlResult)) :=
  if validator cfg.baseUrl = false then some (Except.error "Invalid base URL provided")
  else (crawl net sm clean memOk cfg fuel).map (fun st => Except.ok st.results)

/-- Helper for `userAgentStarBlockDisallowsAll`: scan lines tracking whether
the current block belongs to `User-agent: *`. -/
def blockScanGo : List String → Bool → Bool
  | [], _ => false
  | line :: rest, inStar =>
    let l := pyStrip line
    if pyStartsWith (pyLower l) "user-agent:" then
      blockScanGo rest (pyStrip (afterFirstColon l) = "*")
    else if inStar ∧ l = "Disallow: /" then true
    else blockScanGo rest inStar

/-- Modelled from the spec's words for claim C4's robots reading (the
specification-side predicate used only for comparison against the code's
behaviour): "a `User-agent: *` block containing `Disallow: /` disallows the
entire host" — a block is the run of lines after a `User-agent: *` line up to
the next `User-agent:` line, and it must contain a `Disallow: /` line. -/
def userAgentStarBlockDisallowsAll (content : String) : Bool :=
  blockScanGo (pySplitOn content "\n") false

/-- The number of URLs a single candidate sitemap contributes (size of its
fetch-and-parse result; 0 if the recursion budget ran out). -/
def sitemapContrib (net : Net) (domain : String) (maxPages fuel : Nat) (c : String) :
    Nat :=
  (fetchAndParseSitemap net domain maxPages fuel c).elim 0 List.length

/-- The largest single-candidate contribution over a candidate list. -/
def contribMax (net : Net) (domain : String) (maxPages fuel : Nat)
    (locs : List String) : Nat :=
  (locs.map (sitemapContrib net domain maxPages fuel)).foldl max 0

/-- Demo oracle: a sitemap index whose only `<loc>` entry is the index URL
itself (the cyclic case of claim C2). -/
def cycNet : Net := fun u =>
  if u = "https://example.com/sitemap.xml" then
    some ⟨200, "application/xml", "<sitemapindex>",
          .sitemapindex ["https://example.com/sitemap.xml"], [], none, none⟩
  else none

/-- Demo oracle for claim C2's yield count: a sitemap index referencing
`N = 2` nested sitemaps with `M = 3` distinct valid URLs each. -/
def c2Net : Net := fun u =>
  if u = "https://example.com/sitemap.xml" then
    some ⟨200, "application/xml", "<sitemapindex>",
          .sitemapindex ["https://example.com/s1.xml", "https://example.com/s2.xml"],
          [], none, none⟩
  else if u = "https://example.com/s1.xml" then
    some ⟨200, "application/xml", "<urlset>",
          .urlset ["https://example.com/a1", "https://example.com/a2",
                   "https://example.com/a3"], [], none, none⟩
  else if u = "https://example.com/s2.xml" then
    some ⟨200, "application/xml", "<urlset>",
          .urlset ["https://example.com/b1", "https://example.com/b2",
                   "https://example.com/b3"], [], none, none⟩
  else none

/-- Demo oracle for claim C6: two candidate locations answering with urlsets
of 3 and 4 distinct valid URLs. -/
def c6Net : Net := fun u =>
  if u = "https://example.com/sitemap.xml" then
    some ⟨200, "application/xml", "<urlset>",
          .urlset ["https://example.com/a1", "https://example.com/a2",
                   "https://example.com/a3"], [], none, none⟩
  else if u = "https://example.com/sitemap_index.xml" then
    some ⟨200, "application/xml", "<urlset>",
          .urlset ["https://example.com/b1", "https://example.com/b2",
                   "https://example.com/b3", "https://example.com/b4"],
          [], none, none⟩
  else none

/-- Demo oracle for claim C3: robots.txt declares one extra sitemap. -/
def c3Net : Net := fun u =>
  if u = "https://example.com/robots.txt" then
    some (Response.plain 200 "text/plain" "Sitemap: https://example.com/extra.xml")
  else none

/-- Robots body for claim C4's counterexample: the `User-agent: *` block
contains no `Disallow` line at all, but the file as a whole contains both
`User-agent: *` and the substring `Disallow: /` (inside `Disallow: /private`
of a different block). -/
def c4RobotsText : String :=
  "User-agent: *\nAllow: /x\nUser-agent: evil\nDisallow: /private"

/-- Demo oracle serving `c4RobotsText` for `example.com`. -/
def c4Net : Net := fun u =>
  if u = "https://example.com/robots.txt" then
    some (Response.plain 200 "text/plain" c4RobotsText)
  else none

/-- Demo oracle for claim C4's witness: a robots.txt that disallows the
whole host. -/
def c4WitNet : Net := fun u =>
  if u = "https://example.com/robots.txt" then
    some (Response.plain 200 "text/plain" "User-agent: *\nDisallow: /")
  else none

/-- Demo oracle for claim C7: a 200 response with a non-HTML content type. -/
def c7Net : Net := fun u =>
  if u = "https://example.com/plain" then
    some (Response.plain 200 "text/plain" "hello")
  else none

/-- Page text (over 100 characters, three sentences) used by the C8 and C9
demos. -/
def demoPageText : String :=
  "Alpha beta gamma delta epsilon zeta eta theta iota kappa one. Bravo charlie delta echo foxtrot golf hotel india two. Delta kilo lima mike november oscar papa quebec three."

/-- Demo oracle for claim C8: the invalid base URL `notaurl` nevertheless
answers a GET with a perfectly crawlable HTML page. -/
def c8Net : Net := fun u =>
  if u = "notaurl" then
    some ⟨200, "text/html", "<html>", .parseError, [], some demoPageText, some "Demo"⟩
  else none

/-- Configuration for claim C8's counterexample: an invalid base URL. -/
def c8Cfg : Config := ⟨"notaurl", 5, 100, 10, true⟩

/-- Demo oracle for claim C9: one crawlable HTML page. -/
def c9Net : Net := fun u =>
  if u = "https://example.com/page" then
    some ⟨200, "text/html", "<html>", .parseError, [], some demoPageText, some "Demo"⟩
  else none

/-- Configuration used by the C1 witness (everything else about the oracle
fails, so the run degrades to manual mode with a single fetch). -/
def c1Cfg : Config := ⟨"https://example.com", 5, 100, 10, true⟩

/-- A sitemap-mode state with a seeded queue, used by the C5 witness. -/
def c5DemoSt : CrawlSt :=
  { initialCrawlSt with method := CrawlMethod.sitemap, queue := ["https://example.com/a"] }

theorem mem_setInsert {a b : String} {s : List String} :
    a ∈ setInsert b s ↔ a = b ∨ a ∈ s := by
  unfold setInsert
  split
  · constructor
    · intro h
      exact Or.inr h
    · rintro (rfl | h)
      · assumption
      · exact h
  · simp [or_comm]

theorem sub_setInsert (b : String) (s : List String) : s ⊆ setInsert b s := by
  intro a ha
  exact mem_setInsert.mpr (Or.inr ha)

theorem mem_setInsert_self (b : String) (s : List String) : b ∈ setInsert b s :=
  mem_setInsert.mpr (Or.inl rfl)

theorem length_setInsert_le (u : String) (s : List String) :
    (setInsert u s).length ≤ s.length + 1 := by
  unfold setInsert
  split
  · omega
  · simp

theorem length_setUnion_le (s t : List String) :
    (setUnion s t).length ≤ s.length + t.length := by
  induction t generalizing s with
  | nil => simp [setUnion]
  | cons x xs ih =>
    have h1 : setUnion s (x :: xs) = setUnion (setInsert x s) xs := rfl
    have h2 := ih (setInsert x s)
    have h3 := length_setInsert_le x s
    have h4 : (x :: xs).length = xs.length + 1 := rfl
    rw [h1]
    omega

theorem lookup_append_single_of_none {l : List (String × Bool)} {k : String} {v : Bool}
    (h : l.lookup k = none) : (l ++ [(k, v)]).lookup k = some v := by
  induction l with
  | nil => simp [List.lookup]
  | cons p rest ih =>
    obtain ⟨a, b⟩ := p
    cases heq : k == a with
    | true =>
      have hx : ((a, b) :: rest).lookup k = some b := by simp [List.lookup, heq]
      rw [hx] at h
      cases h
    | false =>
      have hx : ((a, b) :: rest).lookup k = rest.lookup k := by simp [List.lookup, heq]
      have hy : (((a, b) :: rest) ++ [(k, v)]).lookup k = (rest ++ [(k, v)]).lookup k := by
        simp [List.lookup, heq]
      rw [hx] at h
      rw [hy]
      exact ih h

theorem foldl_max_eq (l : List Nat) : ∀ a : Nat, l.foldl max a = max a (l.foldl max 0) := by
  induction l with
  | nil => intro a; simp
  | cons x xs ih =>
    intro a
    have h1 : (x :: xs).foldl max a = xs.foldl max (max a x) := rfl
    have h2 : (x :: xs).foldl max 0 = xs.foldl max x := by simp
    rw [h1, h2, ih (max a x), ih x, Nat.max_assoc]

theorem contribMax_cons (net : Net) (d : String) (P f : Nat) (c : String)
    (rest : List String) :
    contribMax net d P f (c :: rest) =
      max (sitemapContrib net d P f c) (contribMax net d P f rest) := by
  unfold contribMax
  rw [List.map_cons]
  have h1 : (sitemapContrib net d P f c :: rest.map (sitemapContrib net d P f)).foldl max 0 =
      (rest.map (sitemapContrib net d P f)).foldl max (max 0 (sitemapContrib net d P f c)) :=
    rfl
  rw [h1, foldl_max_eq, Nat.zero_max]

theorem discoverLoop_length_lt (net : Net) (d : String) (P fuel : Nat) :
    ∀ (locs acc r : List String), acc.length < P →
      discoverLoop net d P fuel locs acc = some r →
      r.length < P + contribMax net d P fuel locs := by
  intro locs
  induction locs with
  | nil =>
    intro acc r hacc h
    simp only [discoverLoop] at h
    injection h with h'
    subst h'
    have hz : contribMax net d P fuel [] = 0 := rfl
    omega
  | cons c rest ih =>
    intro acc r hacc h
    rw [contribMax_cons]
    simp only [discoverLoop] at h
    split at h
    · cases h
    · rename_i urls hfp
      have hcontrib : urls.length = sitemapContrib net d P fuel c := by
        unfold sitemapContrib
        rw [hfp]
        rfl
      have hmaxl := Nat.le_max_left (sitemapContrib net d P fuel c)
        (contribMax net d P fuel rest)
      have hmaxr := Nat.le_max_right (sitemapContrib net d P fuel c)
        (contribMax net d P fuel rest)
      split at h
      · split at h
        · injection h with h'
          subst h'
          have hlen := length_setUnion_le acc urls
          omega
        · rename_i hcap
          have hres := ih (setUnion acc urls) r (by omega) h
          omega
      · have hres := ih acc r hacc h
        omega

theorem robotsLineStep_shape (locs : List String) (line : String) :
    robotsLineStep locs line = locs ∨ ∃ t, robotsLineStep locs line = locs ++ [t] := by
  simp only [robotsLineStep]
  split
  · split
    · exact Or.inl rfl
    · exact Or.inr ⟨_, rfl⟩
  · exact Or.inl rfl

theorem foldl_robotsLineStep_appends (lines : List String) :
    ∀ locs, ∃ e, lines.foldl robotsLineStep locs = locs ++ e := by
  induction lines with
  | nil =>
    intro locs
    exact ⟨[], by simp⟩
  | cons line rest ih =>
    intro locs
    have h1 : (line :: rest).foldl robotsLineStep locs =
        rest.foldl robotsLineStep (robotsLineStep locs line) := List.foldl_cons _ _
    obtain ⟨e, he⟩ := ih (robotsLineStep locs line)
    rcases robotsLineStep_shape locs line with h | ⟨t, h⟩
    · exact ⟨e, by rw [h1, he, h]⟩
    · exact ⟨[t] ++ e, by rw [h1, he, h, List.append_assoc]⟩

theorem crawlUrl_queue (net : Net) (sm : SummModel) (cl : String → String)
    (st : CrawlSt) (url : String) :
    (crawlUrl net sm cl st url).1.queue = st.queue := by
  simp only [crawlUrl]
  repeat' split
  all_goals rfl

theorem crawlUrl_method (net : Net) (sm : SummModel) (cl : String → String)
    (st : CrawlSt) (url : String) :
    (crawlUrl net sm cl st url).1.method = st.method := by
  simp only [crawlUrl]
  repeat' split
  all_goals rfl

theorem crawlUrl_fetchInv (net : Net) (sm : SummModel) (cl : String → String)
    (st : CrawlSt) (url : String)
    (h1 : st.fetchLog.Nodup) (h2 : ∀ u ∈ st.fetchLog, u ∈ st.visited) :
    (crawlUrl net sm cl st url).1.fetchLog.Nodup ∧
      ∀ u ∈ (crawlUrl net sm cl st url).1.fetchLog,
        u ∈ (crawlUrl net sm cl st url).1.visited := by
  simp only [crawlUrl]
  split
  · exact ⟨h1, h2⟩
  · rename_i hguard
    push_neg at hguard
    obtain ⟨hv, hf⟩ := hguard
    have hnotlog : url ∉ st.fetchLog := fun hmem => hv (h2 url hmem)
    have hnodup : (st.fetchLog ++ [url]).Nodup := by
      simp [List.nodup_append, h1, hnotlog]
    have hsubs : ∀ u ∈ st.fetchLog ++ [url], u ∈ setInsert url st.visited := by
      intro u hu
      rcases List.mem_append.mp hu with hu | hu
      · exact sub_setInsert url st.visited (h2 u hu)
      · simp only [List.mem_singleton] at hu
        rw [hu]
        exact mem_setInsert_self url st.visited
    have hold : ∀ u ∈ st.fetchLog, u ∈ setInsert url st.visited :=
      fun u hu => sub_setInsert url st.visited (h2 u hu)
    repeat' split
    all_goals first
      | exact ⟨hnodup, hsubs⟩
      | exact ⟨h1, hold⟩

theorem crawlUrl_failedSub (net : Net) (sm : SummModel) (cl : String → String)
    (st : CrawlSt) (url : String) (h : ∀ u ∈ st.failed, u ∈ st.visited) :
    ∀ u ∈ (crawlUrl net sm cl st url).1.failed,
      u ∈ (crawlUrl net sm cl st url).1.visited := by
  simp only [crawlUrl]
  split
  · exact h
  · have hsub : ∀ u ∈ st.failed, u ∈ setInsert url st.visited :=
      fun u hu => sub_setInsert url st.visited (h u hu)
    have hsub2 : ∀ u ∈ setInsert url st.failed, u ∈ setInsert url st.visited := by
      intro u hu
      rcases mem_setInsert.mp hu with rfl | hu
      · exact mem_setInsert_self u st.visited
      · exact hsub u hu
    repeat' split
    all_goals first
      | exact hsub2
      | exact hsub

theorem runBatch_queue (net : Net) (sm : SummModel) (cl : String → String) :
    ∀ (batch : List String) (st : CrawlSt),
      (runBatch net sm cl st batch).1.queue = st.queue := by
  intro batch
  induction batch with
  | nil => intro st; rfl
  | cons u rest ih =>
    intro st
    have h1 : (runBatch net sm cl st (u :: rest)).1 =
        (runBatch net sm cl (crawlUrl net sm cl st u).1 rest).1 := rfl
    rw [h1, ih, crawlUrl_queue]

theorem runBatch_method (net : Net) (sm : SummModel) (cl : String → String) :
    ∀ (batch : List String) (st : CrawlSt),
      (runBatch net sm cl st batch).1.method = st.method := by
  intro batch
  induction batch with
  | nil => intro st; rfl
  | cons u rest ih =>
    intro st
    have h1 : (runBatch net sm cl st (u :: rest)).1 =
        (runBatch net sm cl (crawlUrl net sm cl st u).1 rest).1 := rfl
    rw [h1, ih, crawlUrl_method]

theorem runBatch_fetchInv (net : Net) (sm : SummModel) (cl : String → String) :
    ∀ (batch : List String) (st : CrawlSt),
      st.fetchLog.Nodup → (∀ u ∈ st.fetchLog, u ∈ st.visited) →
      (runBatch net sm cl st batch).1.fetchLog.Nodup ∧
        ∀ u ∈ (runBatch net sm cl st batch).1.fetchLog,
          u ∈ (runBatch net sm cl st batch).1.visited := by
  intro batch
  induction batch with
  | nil => intro st h1 h2; exact ⟨h1, h2⟩
  | cons u rest ih =>
    intro st h1 h2
    have h3 := crawlUrl_fetchInv net sm cl st u h1 h2
    have h4 : (runBatch net sm cl st (u :: rest)).1 =
        (runBatch net sm cl (crawlUrl net sm cl st u).1 rest).1 := rfl
    rw [h4]
    exact ih (crawlUrl net sm cl st u).1 h3.1 h3.2

theorem runBatch_failedSub (net : Net) (sm : SummModel) (cl : String → String) :
    ∀ (batch : List String) (st : CrawlSt),
      (∀ u ∈ st.failed, u ∈ st.visited) →
      ∀ u ∈ (runBatch net sm cl st batch).1.failed,
        u ∈ (runBatch net sm cl st batch).1.visited := by
  intro batch
  induction batch with
  | nil => intro st h; exact h
  | cons u rest ih =>
    intro st h
    have h3 := crawlUrl_failedSub net sm cl st u h
    have h4 : (runBatch net sm cl st (u :: rest)).1 =
        (runBatch net sm cl (crawlUrl net sm cl st u).1 rest).1 := rfl
    rw [h4]
    exact ih (crawlUrl net sm cl st u).1 h3

theorem addUrlStep_visited (s : CrawlSt) (u : String) :
    (addUrlStep s u).visited = s.visited := by
  simp only [addUrlStep]
  split <;> rfl

theorem addUrlStep_failed (s : CrawlSt) (u : String) :
    (addUrlStep s u).failed = s.failed := by
  simp only [addUrlStep]
  split <;> rfl

theorem addUrlStep_method (s : CrawlSt) (u : String) :
    (addUrlStep s u).method = s.method := by
  simp only [addUrlStep]
  split <;> rfl

theorem addUrlStep_fetchLog (s : CrawlSt) (u : String) :
    (addUrlStep s u).fetchLog = s.fetchLog := by
  simp only [addUrlStep]
  split <;> rfl

theorem addUrlStep_queue_le (s : CrawlSt) (u : String) :
    (addUrlStep s u).queue.length ≤ max s.queue.length 1000 := by
  simp only [addUrlStep]
  split
  · rename_i hc
    have hlen : (s.queue ++ [u]).length = s.queue.length + 1 := by simp
    have hmax := Nat.le_max_right s.queue.length 1000
    have hq : s.queue.length < 1000 := hc.2.2
    simp only [hlen]
    omega
  · exact Nat.le_max_left _ _

theorem addDiscoveredUrls_visited :
    ∀ (urls : List String) (s : CrawlSt),
      (addDiscoveredUrls s urls).visited = s.visited := by
  intro urls
  induction urls with
  | nil => intro s; rfl
  | cons u rest ih =>
    intro s
    have h1 : addDiscoveredUrls s (u :: rest) = addDiscoveredUrls (addUrlStep s u) rest :=
      List.foldl_cons _ _
    rw [h1, ih, addUrlStep_visited]

theorem addDiscoveredUrls_failed :
    ∀ (urls : List String) (s : CrawlSt),
      (addDiscoveredUrls s urls).failed = s.failed := by
  intro urls
  induction urls with
  | nil => intro s; rfl
  | cons u rest ih =>
    intro s
    have h1 : addDiscoveredUrls s (u :: rest) = addDiscoveredUrls (addUrlStep s u) rest :=
      List.foldl_cons _ _
    rw [h1, ih, addUrlStep_failed]

theorem addDiscoveredUrls_method :
    ∀ (urls : List String) (s : CrawlSt),
      (addDiscoveredUrls s urls).method = s.method := by
  intro urls
  induction urls with
  | nil => intro s; rfl
  | cons u rest ih =>
    intro s
    have h1 : addDiscoveredUrls s (u :: rest) = addDiscoveredUrls (addUrlStep s u) rest :=
      List.foldl_cons _ _
    rw [h1, ih, addUrlStep_method]

theorem addDiscoveredUrls_fetchLog :
    ∀ (urls : List String) (s : CrawlSt),
      (addDiscoveredUrls s urls).fetchLog = s.fetchLog := by
  intro urls
  induction urls with
  | nil => intro s; rfl
  | cons u rest ih =>
    intro s
    have h1 : addDiscoveredUrls s (u :: rest) = addDiscoveredUrls (addUrlStep s u) rest :=
      List.foldl_cons _ _
    rw [h1, ih, addUrlStep_fetchLog]

theorem addDiscoveredUrls_queue_le :
    ∀ (urls : List String) (s : CrawlSt),
      (addDiscoveredUrls s urls).queue.length ≤ max s.queue.length 1000 := by
  intro urls
  induction urls with
  | nil => intro s; exact Nat.le_max_left _ _
  | cons u rest ih =>
    intro s
    have h1 : addDiscoveredUrls s (u :: rest) = addDiscoveredUrls (addUrlStep s u) rest :=
      List.foldl_cons _ _
    rw [h1]
    have h2 := ih (addUrlStep s u)
    have h3 := addUrlStep_queue_le s u
    have h4 : max (addUrlStep s u).queue.length 1000 ≤ max s.queue.length 1000 :=
      Nat.max_le.mpr ⟨h3, Nat.le_max_right _ _⟩
    exact le_trans h2 h4

theorem feedbackStep_visited (s : CrawlSt) (o : Option CrawlResult) :
    (feedbackStep s o).visited = s.visited := by
  unfold feedbackStep
  split
  · split
    · exact addDiscoveredUrls_visited _ _
    · rfl
  · rfl

theorem feedbackStep_failed (s : CrawlSt) (o : Option CrawlResult) :
    (feedbackStep s o).failed = s.failed := by
  unfold feedbackStep
  split
  · split
    · exact addDiscoveredUrls_failed _ _
    · rfl
  · rfl

theorem feedbackStep_method (s : CrawlSt) (o : Option CrawlResult) :
    (feedbackStep s o).method = s.method := by
  unfold feedbackStep
  split
  · split
    · exact addDiscoveredUrls_method _ _
    · rfl
  · rfl

theorem feedbackStep_fetchLog (s : CrawlSt) (o : Option CrawlResult) :
    (feedbackStep s o).fetchLog = s.fetchLog := by
  unfold feedbackStep
  split
  · split
    · exact addDiscoveredUrls_fetchLog _ _
    · rfl
  · rfl

theorem feedbackStep_queue_le (s : CrawlSt) (o : Option CrawlResult) :
    (feedbackStep s o).queue.length ≤ max s.queue.length 1000 := by
  unfold feedbackStep
  split
  · split
    · exact addDiscoveredUrls_queue_le _ _
    · exact Nat.le_max_left _ _
  · exact Nat.le_max_left _ _

theorem feedbackUrls_visited :
    ∀ (rs : List (Option CrawlResult)) (s : CrawlSt),
      (feedbackUrls s rs).visited = s.visited := by
  intro rs
  induction rs with
  | nil => intro s; rfl
  | cons o rest ih =>
    intro s
    have h1 : feedbackUrls s (o :: rest) = feedbackUrls (feedbackStep s o) rest :=
      List.foldl_cons _ _
    rw [h1, ih, feedbackStep_visited]

theorem feedbackUrls_failed :
    ∀ (rs : List (Option CrawlResult)) (s : CrawlSt),
      (feedbackUrls s rs).failed = s.failed := by
  intro rs
  induction rs with
  | nil => intro s; rfl
  | cons o rest ih =>
    intro s
    have h1 : feedbackUrls s (o :: rest) = feedbackUrls (feedbackStep s o) rest :=
      List.foldl_cons _ _
    rw [h1, ih, feedbackStep_failed]

theorem feedbackUrls_method :
    ∀ (rs : List (Option CrawlResult)) (s : CrawlSt),
      (feedbackUrls s rs).method = s.method := by
  intro rs
  induction rs with
  | nil => intro s; rfl
  | cons o rest ih =>
    intro s
    have h1 : feedbackUrls s (o :: rest) = feedbackUrls (feedbackStep s o) rest :=
      List.foldl_cons _ _
    rw [h1, ih, feedbackStep_method]

theorem feedbackUrls_fetchLog :
    ∀ (rs : List (Option CrawlResult)) (s : CrawlSt),
      (feedbackUrls s rs).fetchLog = s.fetchLog := by
  intro rs
  induction rs with
  | nil => intro s; rfl
  | cons o rest ih =>
    intro s
    have h1 : feedbackUrls s (o :: rest) = feedbackUrls (feedbackStep s o) rest :=
      List.foldl_cons _ _
    rw [h1, ih, feedbackStep_fetchLog]

theorem feedbackUrls_queue_le :
    ∀ (rs : List (Option CrawlResult)) (s : CrawlSt),
      (feedbackUrls s rs).queue.length ≤ max s.queue.length 1000 := by
  intro rs
  induction rs with
  | nil => intro s; exact Nat.le_max_left _ _
  | cons o rest ih =>
    intro s
    have h1 : feedbackUrls s (o :: rest) = feedbackUrls (feedbackStep s o) rest :=
      List.foldl_cons _ _
    rw [h1]
    have h2 := ih (feedbackStep s o)
    have h3 := feedbackStep_queue_le s o
    have h4 : max (feedbackStep s o).queue.length 1000 ≤ max s.queue.length 1000 :=
      Nat.max_le.mpr ⟨h3, Nat.le_max_right _ _⟩
    exact le_trans h2 h4

theorem crawlLoop_fetchInv (net : Net) (sm : SummModel) (cl : String → String)
    (memOk : Nat → Bool) (cfg : Config) :
    ∀ (fuel : Nat) (st : CrawlSt),
      st.fetchLog.Nodup → (∀ u ∈ st.fetchLog, u ∈ st.visited) →
      (crawlLoop net sm cl memOk cfg fuel st).fetchLog.Nodup ∧
        ∀ u ∈ (crawlLoop net sm cl memOk cfg fuel st).fetchLog,
          u ∈ (crawlLoop net sm cl memOk cfg fuel st).visited := by
  intro fuel
  induction fuel with
  | zero => intro st h1 h2; exact ⟨h1, h2⟩
  | succ n ih =>
    intro st h1 h2
    simp only [crawlLoop]
    split
    · exact ⟨h1, h2⟩
    · split
      · exact ⟨h1, h2⟩
      · split
        · exact ⟨h1, h2⟩
        · have hrb := runBatch_fetchInv net sm cl
            (st.queue.take (min cfg.maxConcurrent st.queue.length))
            { st with queue := st.queue.drop (min cfg.maxConcurrent st.queue.length) }
            h1 h2
          apply ih
          · split
            · rw [feedbackUrls_fetchLog]
              exact hrb.1
            · exact hrb.1
          · split
            · intro u hu
              rw [feedbackUrls_fetchLog] at hu
              rw [feedbackUrls_visited]
              exact hrb.2 u hu
            · exact hrb.2

theorem crawlLoop_failedSub (net : Net) (sm : SummModel) (cl : String → String)
    (memOk : Nat → Bool) (cfg : Config) :
    ∀ (fuel : Nat) (st : CrawlSt),
      (∀ u ∈ st.failed, u ∈ st.visited) →
      ∀ u ∈ (crawlLoop net sm cl memOk cfg fuel st).failed,
        u ∈ (crawlLoop net sm cl memOk cfg fuel st).visited := by
  intro fuel
  induction fuel with
  | zero => intro st h; exact h
  | succ n ih =>
    intro st h
    simp only [crawlLoop]
    split
    · exact h
    · split
      · exact h
      · split
        · exact h
        · have hrb := runBatch_failedSub net sm cl
            (st.queue.take (min cfg.maxConcurrent st.queue.length))
            { st with queue := st.queue.drop (min cfg.maxConcurrent st.queue.length) }
            h
          apply ih
          split
          · intro u hu
            rw [feedbackUrls_failed] at hu
            rw [feedbackUrls_visited]
            exact hrb u hu
          · exact hrb

theorem crawlLoop_queue_le (net : Net) (sm : SummModel) (cl : String → String)
    (memOk : Nat → Bool) (cfg : Config) :
    ∀ (fuel : Nat) (st : CrawlSt),
      (crawlLoop net sm cl memOk cfg fuel st).queue.length ≤ max st.queue.length 1000 := by
  intro fuel
  induction fuel with
  | zero => intro st; exact Nat.le_max_left _ _
  | succ n ih =>
    intro st
    simp only [crawlLoop]
    split
    · exact Nat.le_max_left _ _
    · split
      · exact Nat.le_max_left _ _
      · have hdrop : (st.queue.drop (min cfg.maxConcurrent st.queue.length)).length ≤
            st.queue.length := by
          rw [List.length_drop]
          omega
        split
        · exact le_trans hdrop (Nat.le_max_left _ _)
        · refine le_trans (ih _) (Nat.max_le.mpr ⟨?_, Nat.le_max_right _ _⟩)
          split
          · refine le_trans (feedbackUrls_queue_le _ _) (Nat.max_le.mpr ⟨?_, Nat.le_max_right _ _⟩)
            rw [runBatch_queue]
            exact le_trans hdrop (Nat.le_max_left _ _)
          · rw [runBatch_queue]
            exact le_trans hdrop (Nat.le_max_left _ _)

theorem crawlLoop_queue_sitemap (net : Net) (sm : SummModel) (cl : String → String)
    (memOk : Nat → Bool) (cfg : Config) :
    ∀ (fuel : Nat) (st : CrawlSt), st.method = CrawlMethod.sitemap →
      (crawlLoop net sm cl memOk cfg fuel st).queue.length ≤ st.queue.length := by
  intro fuel
  induction fuel with
  | zero => intro st _; exact le_refl _
  | succ n ih =>
    intro st hst
    simp only [crawlLoop]
    split
    · exact le_refl _
    · split
      · exact le_refl _
      · have hdrop : (st.queue.drop (min cfg.maxConcurrent st.queue.length)).length ≤
            st.queue.length := by
          rw [List.length_drop]
          omega
        split
        · exact hdrop
        · split
          · rename_i hmanual
            rw [runBatch_method] at hmanual
            have h2 : st.method = CrawlMethod.manual := hmanual
            rw [hst] at h2
            cases h2
          · have hm : (runBatch net sm cl
                { st with queue := st.queue.drop (min cfg.maxConcurrent st.queue.length) }
                (st.queue.take (min cfg.maxConcurrent st.queue.length))).1.method =
                CrawlMethod.sitemap := by
              rw [runBatch_method]
              exact hst
            refine le_trans (ih _ hm) ?_
            rw [runBatch_queue]
            exact hdrop

theorem crawl_eq_loop (net : Net) (sm : SummModel) (cl : String → String)
    (memOk : Nat → Bool) (cfg : Config) (fuel : Nat) (st : CrawlSt)
    (h : crawl net sm cl memOk cfg fuel = some st) :
    ∃ st1 : CrawlSt, st1.fetchLog = [] ∧ st1.visited = [] ∧ st1.failed = [] ∧
      st = crawlLoop net sm cl memOk cfg fuel st1 := by
  simp only [crawl] at h
  split at h
  · cases h
  · rename_i st1 heq
    injection h with h2
    have hempty : st1.fetchLog = [] ∧ st1.visited = [] ∧ st1.failed = [] := by
      split at heq
      · split at heq
        · cases heq
        · split at heq
          · injection heq with h3
            subst h3
            exact ⟨rfl, rfl, rfl⟩
          · injection heq with h3
            subst h3
            exact ⟨rfl, rfl, rfl⟩
      · injection heq with h3
        subst h3
        exact ⟨rfl, rfl, rfl⟩
    exact ⟨st1, hempty.1, hempty.2.1, hempty.2.2, h2.symm⟩

/-- Claim C1: for every crawl run, each URL is fetched at most once — the
visited/failed membership check precedes every fetch, the URL is recorded in
the visited set before its fetch, and so the run-end log of issued page GETs
contains no duplicates and only URLs recorded in the visited set (the union
of the visited and failed sets therefore counts each attempted URL once). -/
theorem crawl_no_duplicate_fetch (net : Net) (sm : SummModel) (cl : String → String)
    (memOk : Nat → Bool) (cfg : Config) (fuel : Nat) (st : CrawlSt)
    (h : crawl net sm cl memOk cfg fuel = some st) :
    st.fetchLog.Nodup ∧ ∀ u ∈ st.fetchLog, u ∈ st.visited := by
  obtain ⟨st1, hlog, hvis, hfail, rfl⟩ := crawl_eq_loop net sm cl memOk cfg fuel st h
  have h1 : st1.fetchLog.Nodup := by
    rw [hlog]
    exact List.nodup_nil
  have h2 : ∀ u ∈ st1.fetchLog, u ∈ st1.visited := by
    rw [hlog]
    intro u hu
    cases hu
  exact crawlLoop_fetchInv net sm cl memOk cfg fuel st1 h1 h2

/-- Witness for C1 at a concrete run (an oracle on which every request
raises, so the crawl falls back to manual mode and attempts one URL). -/
theorem crawl_no_duplicate_fetch_witness :
    ((crawl (fun _ => none) none id (fun _ => true) c1Cfg 5).getD initialCrawlSt).fetchLog.Nodup ∧
      ∀ u ∈ ((crawl (fun _ => none) none id (fun _ => true) c1Cfg 5).getD initialCrawlSt).fetchLog,
        u ∈ ((crawl (fun _ => none) none id (fun _ => true) c1Cfg 5).getD initialCrawlSt).visited :=
  crawl_no_duplicate_fetch (fun _ => none) none id (fun _ => true) c1Cfg 5
    ((crawl (fun _ => none) none id (fun _ => true) c1Cfg 5).getD initialCrawlSt) (by rfl)

/-- Claim C10: at every point of a crawl run the failed set is a subset of
the visited set — `_crawl_url` inserts the URL into the visited set before any
fetch attempt and the only insertions into the failed set come after it, so
the inclusion is preserved by every single fetch, by the whole fetch loop from
any state satisfying it, and holds at the end of every completed `crawl`. -/
theorem failed_urls_subset_visited :
    (∀ (net : Net) (sm : SummModel) (cl : String → String) (st : CrawlSt) (url : String),
       (∀ u ∈ st.failed, u ∈ st.visited) →
       ∀ u ∈ (crawlUrl net sm cl st url).1.failed,
         u ∈ (crawlUrl net sm cl st url).1.visited) ∧
    (∀ (net : Net) (sm : SummModel) (cl : String → String) (memOk : Nat → Bool)
       (cfg : Config) (fuel : Nat) (st : CrawlSt),
       (∀ u ∈ st.failed, u ∈ st.visited) →
       ∀ u ∈ (crawlLoop net sm cl memOk cfg fuel st).failed,
         u ∈ (crawlLoop net sm cl memOk cfg fuel st).visited) ∧
    (∀ (net : Net) (sm : SummModel) (cl : String → String) (memOk : Nat → Bool)
       (cfg : Config) (fuel : Nat) (st : CrawlSt),
       crawl net sm cl memOk cfg fuel = some st →
       ∀ u ∈ st.failed, u ∈ st.visited) := by
  refine ⟨fun net sm cl st url h => crawlUrl_failedSub net sm cl st url h,
          fun net sm cl memOk cfg fuel st h => crawlLoop_failedSub net sm cl memOk cfg fuel st h,
          ?_⟩
  intro net sm cl memOk cfg fuel st h
  obtain ⟨st1, hlog, hvis, hfail, rfl⟩ := crawl_eq_loop net sm cl memOk cfg fuel st h
  apply crawlLoop_failedSub
  rw [hfail]
  intro u hu
  cases hu

/-- Witness for C10 at a concrete single fetch from the initial state. -/
theorem failed_urls_subset_visited_witness :
    ∀ u ∈ (crawlUrl (fun _ => none) none id initialCrawlSt "https://example.com/a").1.failed,
      u ∈ (crawlUrl (fun _ => none) none id initialCrawlSt "https://example.com/a").1.visited :=
  failed_urls_subset_visited.1 (fun _ => none) none id initialCrawlSt "https://example.com/a"
    (by intro u hu; cases hu)

/-- Counterexample to C5 as stated: the sitemap-mode queue seeding of
`crawl` (lines 482-483) is not subject to the 1000-entry cap — with
`maxPagesPerDomain = 1001` and 1001 discovered sitemap URLs the pending queue
holds 1001 entries. -/
theorem queue_cap_counterexample :
    1000 < (seedSitemapQueue ((List.range 1001).map
      (fun i => "https://example.com/p" ++ toString i)) 1001 []).length := by
  simp [seedSitemapQueue]

/-- Claim C5 as amended: link feedback through `_add_discovered_urls` never
grows the queue beyond `max (current length) 1000`, the fetch loop preserves
that bound from any state, and in sitemap mode the loop never grows the queue
at all (no frontier expansion from page content); only the initial sitemap
seeding is uncapped (see the counterexample). -/
theorem queue_bound_amended :
    (∀ (st : CrawlSt) (urls : List String),
       (addDiscoveredUrls st urls).queue.length ≤ max st.queue.length 1000) ∧
    (∀ (net : Net) (sm : SummModel) (cl : String → String) (memOk : Nat → Bool)
       (cfg : Config) (fuel : Nat) (st : CrawlSt),
       (crawlLoop net sm cl memOk cfg fuel st).queue.length ≤ max st.queue.length 1000) ∧
    (∀ (net : Net) (sm : SummModel) (cl : String → String) (memOk : Nat → Bool)
       (cfg : Config) (fuel : Nat) (st : CrawlSt), st.method = CrawlMethod.sitemap →
       (crawlLoop net sm cl memOk cfg fuel st).queue.length ≤ st.queue.length) :=
  ⟨fun st urls => addDiscoveredUrls_queue_le urls st,
   fun net sm cl memOk cfg fuel st => crawlLoop_queue_le net sm cl memOk cfg fuel st,
   fun net sm cl memOk cfg fuel st h => crawlLoop_queue_sitemap net sm cl memOk cfg fuel st h⟩

/-- Witness for C5's amended sitemap-mode conjunct at a concrete state. -/
theorem queue_bound_amended_witness :
    (crawlLoop (fun _ => none) none id (fun _ => true) c1Cfg 3 c5DemoSt).queue.length ≤
      c5DemoSt.queue.length :=
  queue_bound_amended.2.2 (fun _ => none) none id (fun _ => true) c1Cfg 3 c5DemoSt rfl

/-- Counterexample to C3 as stated: with a robots.txt declaring
`Sitemap: https://example.com/extra.xml`, the declared target ends up at the
*end* of the candidate list (probed last) while the first probed candidate is
still the static `/sitemap.xml` — the source appends instead of prepending. -/
theorem robots_sitemap_position_counterexample :
    (sitemapDiscoveryRobots c3Net "https://example.com"
        (generateSitemapLocations "https://example.com" "example.com")).head? =
      some "https://example.com/sitemap.xml" ∧
    (sitemapDiscoveryRobots c3Net "https://example.com"
        (generateSitemapLocations "https://example.com" "example.com")).getLast? =
      some "https://example.com/extra.xml" ∧
    "https://example.com/sitemap.xml" ≠ "https://example.com/extra.xml" :=
  ⟨rfl, rfl, by decide⟩

/-- Claim C3 as amended: every robots-declared sitemap target is appended to
the end of the candidate-location list (deduplicated), so the statically
seeded candidates remain an unchanged prefix and are probed first;
robots-declared sitemaps are probed after them, not before. -/
theorem robots_sitemap_append_amended (net : Net) (base : String)
    (locations : List String) :
    ∃ extra, sitemapDiscoveryRobots net base locations = locations ++ extra := by
  unfold sitemapDiscoveryRobots
  split
  · exact ⟨[], by simp⟩
  · split
    · exact foldl_robotsLineStep_appends _ _
    · exact ⟨[], by simp⟩

/-- Counterexample to C4 as stated: on `c4RobotsText` the `User-agent: *`
block contains no `Disallow: /` (the spec-side block predicate is false), yet
the code disallows the host, because it only tests the whole file for the two
substrings — `Disallow: /` matches inside `Disallow: /private` of another
block.  The robots fetch returns status 200, so the claimed iff fails. -/
theorem robots_block_counterexample :
    (checkRobotsCrawler c4Net [] "https://example.com/page").1 = false ∧
    userAgentStarBlockDisallowsAll c4RobotsText = false ∧
    (∃ r, c4Net "https://example.com/robots.txt" = some r ∧ r.status = 200) :=
  ⟨rfl, by decide, ⟨_, rfl, rfl⟩⟩

/-- Claim C4 as amended: on a cache miss the robots gate returns *disallowed*
iff the robots.txt fetch returns status 200 and the whole response text
contains both substrings `User-agent: *` and `Disallow: /` anywhere (the two
conditions are not required to sit in the same user-agent block); non-200
responses and fetch errors default to allowed (fail-open); and the per-host
decision is memoized — a second check of the same host, even against a
different network, returns the cached decision and leaves the cache
unchanged. -/
theorem robots_gate_amended :
    (∀ (net : Net) (cache : List (String × Bool)) (url : String),
       cache.lookup (urlparse url).netloc = none →
       ((checkRobotsCrawler net cache url).1 = false ↔
         ∃ r, net ("https://" ++ (urlparse url).netloc ++ "/robots.txt") = some r ∧
              r.status = 200 ∧ strContains r.text "User-agent: *" = true ∧
              strContains r.text "Disallow: /" = true)) ∧
    (∀ (net net2 : Net) (cache : List (String × Bool)) (url : String),
       checkRobotsCrawler net2 (checkRobotsCrawler net cache url).2 url =
         checkRobotsCrawler net cache url) := by
  constructor
  · intro net cache url hmiss
    simp only [checkRobotsCrawler]
    rw [hmiss]
    cases hnet : net ("https://" ++ (urlparse url).netloc ++ "/robots.txt") with
    | none => simp [hnet]
    | some r =>
      by_cases hst : r.status = 200
      · by_cases hc : strContains r.text "User-agent: *" = true ∧
            strContains r.text "Disallow: /" = true
        · simp only [hnet, if_pos hst, if_pos hc]
          constructor
          · intro _
            exact ⟨r, rfl, hst, hc.1, hc.2⟩
          · intro _
            trivial
        · simp only [hnet, if_pos hst, if_neg hc]
          constructor
          · intro hx
            cases hx
          · rintro ⟨r2, hr2, hst2, h1, h2⟩
            injection hr2 with hr2
            subst hr2
            exact absurd ⟨h1, h2⟩ hc
      · simp only [hnet, if_neg hst]
        constructor
        · intro hx
          cases hx
        · rintro ⟨r2, hr2, hst2, _, _⟩
          injection hr2 with hr2
          subst hr2
          exact absurd hst2 hst
  · intro net net2 cache url
    cases hl : cache.lookup (urlparse url).netloc with
    | some b =>
      have h1 : checkRobotsCrawler net cache url = (b, cache) := by
        simp only [checkRobotsCrawler]
        rw [hl]
      rw [h1]
      simp only [checkRobotsCrawler]
      rw [hl]
    | none =>
      simp only [checkRobotsCrawler]
      rw [hl]
      dsimp only
      rw [lookup_append_single_of_none hl]

/-- Witness for C4's amended characterization at a robots.txt that disallows
the whole host for every agent. -/
theorem robots_gate_amended_witness :
    ((checkRobotsCrawler c4WitNet [] "https://example.com/page").1 = false ↔
      ∃ r, c4WitNet ("https://" ++ (urlparse "https://example.com/page").netloc ++
            "/robots.txt") = some r ∧
           r.status = 200 ∧ strContains r.text "User-agent: *" = true ∧
           strContains r.text "Disallow: /" = true) :=
  robots_gate_amended.1 c4WitNet [] "https://example.com/page" rfl

/-- Counterexample to C6 as stated: with `maxPages = 4`, two candidate
locations answering urlsets of 3 and 4 distinct URLs make
`discover_sitemaps` return a set of 7 elements — more than `maxPages`,
because the cap is only checked after each whole candidate is merged. -/
theorem discover_cap_counterexample :
    (discoverSitemaps c6Net "https://example.com" "example.com" 4 5).map List.length =
      some 7 ∧ ¬ (7 ≤ 4) :=
  ⟨rfl, by decide⟩

/-- Claim C6 as amended: discovery stops probing further candidates once the
discovered set has reached `maxPages`, so although the returned set can
exceed `maxPages`, it always stays strictly below `maxPages` plus the largest
single-candidate contribution (the final queue-seeding slice
`[:max_pages_per_domain]` is what enforces the exact cap). -/
theorem discover_cap_amended (net : Net) (domain : String) (P fuel : Nat)
    (locs r : List String) (hP : 0 < P)
    (h : discoverLoop net domain P fuel locs [] = some r) :
    r.length < P + contribMax net domain P fuel locs :=
  discoverLoop_length_lt net domain P fuel locs [] r (by simpa using hP) h

/-- Witness for C6's amended bound at the concrete two-candidate oracle. -/
theorem discover_cap_amended_witness :
    (["https://example.com/a1", "https://example.com/a2", "https://example.com/a3",
      "https://example.com/b1", "https://example.com/b2", "https://example.com/b3",
      "https://example.com/b4"] : List String).length <
      4 + contribMax c6Net "example.com" 4 5
        ["https://example.com/sitemap.xml", "https://example.com/sitemap_index.xml"] :=
  discover_cap_amended c6Net "example.com" 4 5
    ["https://example.com/sitemap.xml", "https://example.com/sitemap_index.xml"]
    ["https://example.com/a1", "https://example.com/a2", "https://example.com/a3",
     "https://example.com/b1", "https://example.com/b2", "https://example.com/b3",
     "https://example.com/b4"] (by decide) (by rfl)

theorem selfRefIndex_no_result (net : Net) (d : String) (P : Nat) (url : String)
    (r : Response) (hnet : net url = some r) (hst : r.status = 200)
    (hxc : isXmlContentCheck (pyLower r.contentType) r.text = true)
    (hx : r.xml = XmlDoc.sitemapindex [url]) (ht : pyStrip url = url)
    (hne : url ≠ "") :
    ∀ fuel, fetchAndParseSitemap net d P fuel url = none := by
  intro fuel
  induction fuel with
  | zero => rfl
  | succ n ih =>
    simp only [fetchAndParseSitemap]
    rw [hnet]
    dsimp only
    rw [if_neg (by simp [hst]), if_pos hxc, hx]
    dsimp only [List.foldl]
    rw [ht, if_neg hne, ih]
    rfl

/-- Counterexample to C2 as stated: a sitemap index referencing `N = 2`
nested sitemaps of `M = 3` distinct valid URLs each, with `maxPages = 4`,
yields 6 discovered URLs, not `min(N×M, maxPages) = 4` — the page cap is
checked only after each whole nested sitemap has been merged. -/
theorem sitemap_yield_counterexample :
    (discoverSitemaps c2Net "https://example.com" "example.com" 4 5).map List.length =
      some 6 ∧ min (2 * 3) 4 = 4 ∧ (6 : Nat) ≠ 4 :=
  ⟨rfl, by decide, by decide⟩

/-- Claim C2 as amended: the sitemap-index recursion is *not* guarded before
descending — the page-cap check sits after each recursive call returns, so a
sitemap index whose `<loc>` references the index itself never completes for
any recursion budget; on acyclic inputs the call returns, and for an index of
N nested sitemaps with M distinct URLs each it yields at least
`min(N×M, maxPages)` and at most `N×M` URLs (shown at N = 2, M = 3,
maxPages = 4). -/
theorem sitemap_recursion_amended :
    (∀ fuel, fetchAndParseSitemap cycNet "example.com" 4 fuel
        "https://example.com/sitemap.xml" = none) ∧
    (∃ l, discoverSitemaps c2Net "https://example.com" "example.com" 4 5 = some l ∧
       min (2 * 3) 4 ≤ l.length ∧ l.length ≤ 2 * 3) := by
  constructor
  · exact selfRefIndex_no_result cycNet "example.com" 4 "https://example.com/sitemap.xml"
      ⟨200, "application/xml", "<sitemapindex>",
        XmlDoc.sitemapindex ["https://example.com/sitemap.xml"], [], none, none⟩
      rfl rfl (by decide) rfl (by decide) (by decide)
  · exact ⟨["https://example.com/a1", "https://example.com/a2", "https://example.com/a3",
            "https://example.com/b1", "https://example.com/b2", "https://example.com/b3"],
      rfl, by decide, by decide⟩

theorem setInsert_of_not_mem {u : String} {s : List String} (h : u ∉ s) :
    setInsert u s = s ++ [u] := by
  unfold setInsert
  rw [if_neg h]

/-- Counterexample to C7 as stated: a 200 response with content type
`text/plain` short-circuits `_crawl_url` (returns `None`) but the URL is
*not* recorded in the failed set. -/
theorem failedset_counterexample :
    (crawlUrl c7Net none id initialCrawlSt "https://example.com/plain").2 = none ∧
    (crawlUrl c7Net none id initialCrawlSt "https://example.com/plain").1.failed = [] :=
  ⟨rfl, rfl⟩

/-- Claim C7 as amended: every short-circuit of `_crawl_url` returns `None`
and the URL, inserted into the visited set before the robots check, is not
retried (a URL already in the visited or failed set is skipped outright);
but only the raised-fetch and non-200 short-circuits record the URL in the
failed set — robots denial, a non-HTML content type and short extracted
content leave the failed set unchanged. -/
theorem short_circuit_amended :
    (∀ (net : Net) (sm : SummModel) (cl : String → String) (st : CrawlSt) (url : String),
       url ∈ st.visited ∨ url ∈ st.failed → crawlUrl net sm cl st url = (st, none)) ∧
    (∀ (net : Net) (sm : SummModel) (cl : String → String) (st : CrawlSt) (url : String),
       url ∉ st.visited → url ∉ st.failed →
       url ∈ (crawlUrl net sm cl st url).1.visited) ∧
    (∀ (net : Net) (sm : SummModel) (cl : String → String) (st : CrawlSt) (url : String),
       url ∉ st.visited → url ∉ st.failed →
       (checkRobotsCrawler net st.robotsCache url).1 = true → net url = none →
       (crawlUrl net sm cl st url).2 = none ∧
         (crawlUrl net sm cl st url).1.failed = st.failed ++ [url]) ∧
    (∀ (net : Net) (sm : SummModel) (cl : String → String) (st : CrawlSt) (url : String)
       (r : Response),
       url ∉ st.visited → url ∉ st.failed →
       (checkRobotsCrawler net st.robotsCache url).1 = true → net url = some r →
       r.status ≠ 200 →
       (crawlUrl net sm cl st url).2 = none ∧
         (crawlUrl net sm cl st url).1.failed = st.failed ++ [url]) ∧
    (∀ (net : Net) (sm : SummModel) (cl : String → String) (st : CrawlSt) (url : String),
       url ∉ st.visited → url ∉ st.failed →
       (checkRobotsCrawler net st.robotsCache url).1 = false →
       (crawlUrl net sm cl st url).2 = none ∧
         (crawlUrl net sm cl st url).1.failed = st.failed) ∧
    (∀ (net : Net) (sm : SummModel) (cl : String → String) (st : CrawlSt) (url : String)
       (r : Response),
       url ∉ st.visited → url ∉ st.failed →
       (checkRobotsCrawler net st.robotsCache url).1 = true → net url = some r →
       r.status = 200 → strContains (pyLower r.contentType) "text/html" = false →
       (crawlUrl net sm cl st url).2 = none ∧
         (crawlUrl net sm cl st url).1.failed = st.failed) ∧
    (∀ (net : Net) (sm : SummModel) (cl : String → String) (st : CrawlSt) (url : String)
       (r : Response) (ec : String),
       url ∉ st.visited → url ∉ st.failed →
       (checkRobotsCrawler net st.robotsCache url).1 = true → net url = some r →
       r.status = 200 → strContains (pyLower r.contentType) "text/html" = true →
       r.extracted = some ec → (pyStrip ec).length < 100 →
       (crawlUrl net sm cl st url).2 = none ∧
         (crawlUrl net sm cl st url).1.failed = st.failed) := by
  refine ⟨?_, ?_, ?_, ?_, ?_, ?_, ?_⟩
  · intro net sm cl st url h
    simp only [crawlUrl]
    rw [if_pos h]
  · intro net sm cl st url hv hf
    simp only [crawlUrl]
    rw [if_neg (not_or.mpr ⟨hv, hf⟩)]
    repeat' split
    all_goals exact mem_setInsert_self url st.visited
  · intro net sm cl st url hv hf hr hnet
    simp only [crawlUrl]
    rw [if_neg (not_or.mpr ⟨hv, hf⟩), hr,
      if_neg (by decide : ¬ (true = false)), hnet]
    exact ⟨rfl, setInsert_of_not_mem hf⟩
  · intro net sm cl st url r hv hf hr hnet hst
    simp only [crawlUrl]
    rw [if_neg (not_or.mpr ⟨hv, hf⟩), hr,
      if_neg (by decide : ¬ (true = false)), hnet]
    dsimp only
    rw [if_pos hst]
    exact ⟨rfl, setInsert_of_not_mem hf⟩
  · intro net sm cl st url hv hf hr
    simp only [crawlUrl]
    rw [if_neg (not_or.mpr ⟨hv, hf⟩), hr, if_pos rfl]
    exact ⟨rfl, rfl⟩
  · intro net sm cl st url r hv hf hr hnet hst hct
    simp only [crawlUrl]
    rw [if_neg (not_or.mpr ⟨hv, hf⟩), hr,
      if_neg (by decide : ¬ (true = false)), hnet]
    dsimp only
    rw [if_neg (by simp [hst]), hct, if_pos rfl]
    exact ⟨rfl, rfl⟩
  · intro net sm cl st url r ec hv hf hr hnet hst hct hec h100
    simp only [crawlUrl]
    rw [if_neg (not_or.mpr ⟨hv, hf⟩), hr,
      if_neg (by decide : ¬ (true = false)), hnet]
    dsimp only
    rw [if_neg (by simp [hst]), hct,
      if_neg (by decide : ¬ (true = false)), hec]
    dsimp only
    rw [if_pos h100]
    exact ⟨rfl, rfl⟩

/-- Witness for C7's amended non-HTML conjunct at the concrete oracle. -/
theorem short_circuit_amended_witness :
    (crawlUrl c7Net none id initialCrawlSt "https://example.com/plain").2 = none ∧
      (crawlUrl c7Net none id initialCrawlSt "https://example.com/plain").1.failed =
        initialCrawlSt.failed :=
  short_circuit_amended.2.2.2.2.2.1 c7Net none id initialCrawlSt
    "https://example.com/plain" (Response.plain 200 "text/plain" "hello")
    (by decide) (by decide) rfl rfl rfl (by decide)

/-- Counterexample to C8 as stated: `crawl` itself performs no base-URL
validation — invoked on the invalid base URL `notaurl` it neither fails nor
stops before I/O: it completes normally, issues a page GET (nonempty fetch
log) and even produces a result. -/
theorem invalid_url_counterexample :
    validatorsUrl "notaurl" = false ∧
    (crawl c8Net none id (fun _ => true) c8Cfg 6).isSome = true ∧
    ((crawl c8Net none id (fun _ => true) c8Cfg 6).getD initialCrawlSt).fetchLog ≠ [] ∧
    ((crawl c8Net none id (fun _ => true) c8Cfg 6).getD initialCrawlSt).results.length = 1 := by
  set_option maxRecDepth 8000 in
  exact ⟨by decide, rfl, by decide, rfl⟩

/-- Claim C8 as amended: base-URL validation lives in the CLI entry point
`main`, not in `crawl` — `main` rejects an invalid base URL with a hard error
before the crawler is constructed and before any I/O (its outcome is
independent of the network), and that validation is the only error `main`
surfaces to the caller: every completed crawl is reported as a success. -/
theorem main_validation_amended :
    (∀ (validator : String → Bool) (net : Net) (sm : SummModel) (cl : String → String)
       (memOk : Nat → Bool) (cfg : Config) (fuel : Nat),
       validator cfg.baseUrl = false →
       mainModel validator net sm cl memOk cfg fuel =
         some (Except.error "Invalid base URL provided")) ∧
    (∀ (validator : String → Bool) (net net2 : Net) (sm : SummModel) (cl : String → String)
       (memOk : Nat → Bool) (cfg : Config) (fuel : Nat),
       validator cfg.baseUrl = false →
       mainModel validator net sm cl memOk cfg fuel =
         mainModel validator net2 sm cl memOk cfg fuel) ∧
    (∀ (validator : String → Bool) (net : Net) (sm : SummModel) (cl : String → String)
       (memOk : Nat → Bool) (cfg : Config) (fuel : Nat) (e : String),
       mainModel validator net sm cl memOk cfg fuel = some (Except.error e) →
       validator cfg.baseUrl = false) := by
  refine ⟨?_, ?_, ?_⟩
  · intro validator net sm cl memOk cfg fuel hval
    simp [mainModel, hval]
  · intro validator net net2 sm cl memOk cfg fuel hval
    simp [mainModel, hval]
  · intro validator net sm cl memOk cfg fuel e h
    by_cases hval : validator cfg.baseUrl = false
    · exact hval
    · exfalso
      simp only [mainModel] at h
      rw [if_neg hval] at h
      cases hcr : crawl net sm cl memOk cfg fuel with
      | none =>
        rw [hcr] at h
        cases h
      | some stc =>
        rw [hcr] at h
        simp at h

/-- Witness for C8's amended validation conjunct at the concrete invalid
base URL. -/
theorem main_validation_amended_witness :
    mainModel validatorsUrl c8Net none id (fun _ => true) c8Cfg 6 =
      some (Except.error "Invalid base URL provided") :=
  main_validation_amended.1 validatorsUrl c8Net none id (fun _ => true) c8Cfg 6 (by decide)

theorem summarizeContent_of_raise (cl : String → String) (content : String)
    (h : ¬ (pyStrip content).length < 100) :
    summarizeContent cl (some (fun _ => none)) content = extractiveSummary content 3 := by
  simp only [summarizeContent]
  rw [if_neg h]

/-- Claim C9: if the summarization pipeline always raises,
`summarize_content` still returns the deterministic extractive fallback
instead of propagating the error, and a page whose fetch otherwise succeeds
still enters the results list with its `summary` populated by that
fallback. -/
theorem summarizer_failure_graceful :
    (∀ (cl : String → String) (content : String), ¬ (pyStrip content).length < 100 →
       summarizeContent cl (some (fun _ => none)) content = extractiveSummary content 3) ∧
    (∀ (net : Net) (cl : String → String) (st : CrawlSt) (url : String) (r : Response)
       (ec : String),
       url ∉ st.visited → url ∉ st.failed →
       (checkRobotsCrawler net st.robotsCache url).1 = true →
       net url = some r → r.status = 200 →
       strContains (pyLower r.contentType) "text/html" = true →
       r.extracted = some ec → ¬ (pyStrip ec).length < 100 →
       ∃ res, (crawlUrl net (some (fun _ => none)) cl st url).2 = some res ∧
         res.summary = extractiveSummary ec 3 ∧
         (crawlUrl net (some (fun _ => none)) cl st url).1.results =
           st.results ++ [res]) := by
  constructor
  · exact summarizeContent_of_raise
  · intro net cl st url r ec hv hf hr hnet hst hct hec h100
    simp only [crawlUrl]
    rw [if_neg (not_or.mpr ⟨hv, hf⟩), hr,
      if_neg (by decide : ¬ (true = false)), hnet]
    dsimp only
    rw [if_neg (by simp [hst]), hct,
      if_neg (by decide : ¬ (true = false)), hec]
    dsimp only
    rw [if_neg h100]
    refine ⟨_, rfl, ?_, rfl⟩
    exact summarizeContent_of_raise cl ec h100

/-- Witness for C9 at a concrete crawlable page. -/
theorem summarizer_failure_graceful_witness :
    ∃ res, (crawlUrl c9Net (some (fun _ => none)) id initialCrawlSt
        "https://example.com/page").2 = some res ∧
      res.summary = extractiveSummary demoPageText 3 ∧
      (crawlUrl c9Net (some (fun _ => none)) id initialCrawlSt
          "https://example.com/page").1.results = initialCrawlSt.results ++ [res] := by
  set_option maxRecDepth 8000 in
  exact summarizer_failure_graceful.2 c9Net id initialCrawlSt "https://example.com/page"
    ⟨200, "text/html", "<html>", XmlDoc.parseError, [], some demoPageText, some "Demo"⟩
    demoPageText (by decide) (by decide) rfl rfl rfl (by decide) rfl (by decide)
